import Mathlib

/-!
Verification development for the query/pagination core of `query_data.py`.

Python strings are modelled as `List Char`; the slide deck of the `.pptx`
presentation is modelled as a `List Slide` threaded through the functions that
the source mutates in place.  All definitions are transcribed from
`src/query_data.py` except where a doc comment says `Modelled from the spec:`
(those functions live in `populate_database.py`, which is not part of the
sources given here).
-/

/-- Python `content.split("\n")`: split a character list at every newline,
keeping empty pieces (splitting the empty string yields one empty piece). -/
def splitNl : List Char → List (List Char)
  | [] => [[]]
  | c :: cs =>
    if c = '\n' then [] :: splitNl cs
    else
      match splitNl cs with
      | [] => [[c]]
      | l :: ls => (c :: l) :: ls

/-- Python `"\n".join(pieces)`: rejoin pieces with the newline separator. -/
def nlJoin : List (List Char) → List Char
  | [] => []
  | [b] => b
  | b :: b2 :: bs => b ++ '\n' :: nlJoin (b2 :: bs)

/-- Python substring containment `needle in hay`. -/
def isSubstr (needle : List Char) : List Char → Bool
  | [] => needle.isEmpty
  | c :: t => needle.isPrefixOf (c :: t) || isSubstr needle t

/-- Python `title.lower()`, modelled characterwise. -/
def lowerStr (s : List Char) : List Char := s.map Char.toLower

/-- The `special_cases` list of `add_slide_with_content` (line 166). -/
def special_cases : List (List Char) :=
  ["summary", "question", "questions", "mcq", "fill in the blanks",
   "fill in the blank", "case study", "case studies"].map String.data

/-- The title-rewriting block of `add_slide_with_content` (lines 168-174). -/
def normalize_title (title : List Char) : List Char :=
  if special_cases.any (fun c => isSubstr c (lowerStr title)) then
    if isSubstr ("summary").data (lowerStr title) then ("Summary:").data
    else if isSubstr ("case study").data (lowerStr title)
        || isSubstr ("case studies").data (lowerStr title) then ("Case study:").data
    else ("Q&A:").data
  else title

/-- One slide of the presentation: the title placeholder is set only on the
first slide produced for an answer (`is_first_slide`), the body is the text
put into the content placeholder. -/
structure Slide where
  title : Option (List Char)
  body : List Char
deriving DecidableEq, Repr

/-- `add_content_to_slide` (lines 192-204): appends one slide to the deck,
setting the title placeholder only when `is_first_slide` holds. -/
def add_content_to_slide (prs : List Slide) (title : List Char)
    (content : List Char) (is_first_slide : Bool) : List Slide :=
  prs ++ [{ title := if is_first_slide then some title else none, body := content }]

/-- The pagination loop of `add_slide_with_content` (lines 176-190):
state is the accumulator `current_content` and the `first_slide` flag; the
final flush after the loop is the base case. -/
def paginateLoop (mc : Nat) (t : List Char) :
    List Slide → List Char → Bool → List (List Char) → List Slide
  | prs, current_content, first_slide, [] =>
      add_content_to_slide prs t current_content first_slide
  | prs, current_content, first_slide, paragraph :: rest =>
      if current_content.length + paragraph.length > mc then
        paginateLoop mc t (add_content_to_slide prs t current_content first_slide)
          paragraph false rest
      else
        paginateLoop mc t prs
          (if current_content = [] then paragraph
           else current_content ++ '\n' :: paragraph) first_slide rest

/-- `MAX_CHARS_PER_SLIDE` (line 17). -/
def MAX_CHARS_PER_SLIDE : Nat := 600

/-- `add_slide_with_content` (lines 164-190), with the character budget `mc`
made an explicit parameter (the source reads the module constant
`MAX_CHARS_PER_SLIDE`): normalize the title, split the content at newlines,
run the pagination loop with an empty accumulator and the flag set. -/
def add_slide_with_content (mc : Nat) (prs : List Slide)
    (title content : List Char) : List Slide :=
  paginateLoop mc (normalize_title title) prs [] true (splitNl content)

/-- `update_presentation` (lines 155-162): load the existing deck (or an empty
one), append the slides for this answer, save. -/
def update_presentation (prs : List Slide) (title content : List Char) : List Slide :=
  add_slide_with_content MAX_CHARS_PER_SLIDE prs title content

/-- The paginator state named by the spec: accumulator, flag, produced deck. -/
structure PagState where
  deck : List Slide
  current_content : List Char
  first_slide : Bool

/-- One step of the paginator, written from the spec wording (section 4.5):
flush on overflow (titled only when the flag is set, then clear it) and start
a fresh accumulator with this line; otherwise append the line, joined by a
newline when the accumulator is non-empty. -/
def specStep (mc : Nat) (t : List Char) (s : PagState) (p : List Char) : PagState :=
  if s.current_content.length + p.length > mc then
    ⟨s.deck ++ [⟨if s.first_slide then some t else none, s.current_content⟩], p, false⟩
  else
    ⟨s.deck,
     if s.current_content = [] then p else s.current_content ++ '\n' :: p,
     s.first_slide⟩

/-- The spec's paginator: fold the step over the lines starting from an empty
accumulator with the flag set, then flush whatever remains. -/
def specPaginate (mc : Nat) (t : List Char) (lines : List (List Char)) : List Slide :=
  (lines.foldl (specStep mc t) ⟨[], [], true⟩).deck
    ++ [⟨if (lines.foldl (specStep mc t) ⟨[], [], true⟩).first_slide then some t else none,
         (lines.foldl (specStep mc t) ⟨[], [], true⟩).current_content⟩]

/-- The four prompt-template keys of `PROMPT_TEMPLATES` (lines 20-65);
`caseStudy` stands for the `"case"` key. -/
inductive PromptKind where
  | rag : PromptKind
  | sum : PromptKind
  | qa : PromptKind
  | caseStudy : PromptKind
deriving DecidableEq

/-- One result of `db.similarity_search_with_score`: the document text, its
`id` metadata entry (`metadata.get("id", None)`), and a score (the source's
float score is modelled abstractly as an integer; it is never used). -/
structure SearchHit where
  page_content : List Char
  id : Option (List Char)
  score : Int
deriving DecidableEq

/-- `PROMPT_TEMPLATES[...]` followed by `.format(context=..., question=...)`
(lines 20-65 and 144-145): each template with the two placeholders spliced. -/
def PROMPT_TEMPLATES (k : PromptKind) (context question : List Char) : List Char :=
  match k with
  | .rag =>
      ("\n    Answer the question based only on the following context:\n    ").data
        ++ context
        ++ ("\n    ---\n    Answer the question based on the above context: ").data
        ++ question ++ ("\n    ").data
  | .sum =>
      ("\n    Summarize the given topic based on the provided context. \n    The summary must be concise, clear, and must cover all points specified by the user. \n    If a specific length is mentioned by the user, ensure the summary adheres to that length. \n    If no length is specified, create a summary that is appropriate in length for the given topic and provided context, without missing any important details.\n    Context:\n    ").data
        ++ context ++ ("\n    ---\n    Topic:\n    ").data ++ question ++ ("\n    ").data
  | .qa =>
      ("\n    You are a question generating and answering model.\n    Generate questions for the user based on the given query and context, and generate appropriate answers for all the questions that you generate.\n    Generate questions and answers based on the type of question that the user specifies.\n    The different types of questions can be:\n    - Multiple choice questions or MCQ (Default should be 4 choices for each question, if not specified by the user. Mention the correct option by printing (Correct option:) at the end. By default, give 5 MCQs if not explicitly specified by the user.),\n    - Fill in the blanks (where a blank is left in the sentence and the correct answer is present inside parentheses () at the end of the sentence. By default, give 5 fill in the blank questions if not explicitly specified by the user.),\n    - True or False questions (where the question statement is given and the correct answer which is true or false, is given inside parentheses () at the end of the sentence. By default, give 5 true or false questions if not explicitly specified by the user.),\n    - Or it can be any other type of question that the user specifies.\n    Context:\n    ").data
        ++ context ++ ("\n    ---\n    Query:\n    ").data ++ question ++ ("\n    ").data
  | .caseStudy =>
      ("\n    You are a case study generation model.\n    Based on the given query and the corresponding provided context, create a case study for the user.\n    The case study must take some example related to the topic and context and explain the concept to the user using that example. \n    The example can be based on real events or can be a made-up story. \n    The case study must also have some conclusion at the end which explains the need for the solution or the concept based on the given context.\n    Context:\n    ").data
        ++ context ++ ("\n    ---\n    Query:\n    ").data ++ question ++ ("\n    ").data

/-- `query_database` (lines 138-153): the vector store's similarity search and
the language model are the external collaborators `search` and `invoke`; the
function retrieves with `k = 5`, builds the context, formats the prompt,
invokes the model, appends the answer to the deck, and returns the response
text together with the updated deck. -/
def query_database (search : List Char → Nat → List SearchHit)
    (invoke : List Char → List Char) (prs : List Slide)
    (query_text : List Char) (prompt_type : PromptKind) : List Char × List Slide :=
  let results := search query_text 5
  let context_text :=
    List.intercalate (("\n\n---\n\n").data) (results.map (fun r => r.page_content))
  let prompt := PROMPT_TEMPLATES prompt_type context_text query_text
  let response_text := invoke prompt
  (response_text, update_presentation prs query_text response_text)

/-- A search oracle that ignores its arguments. -/
def searchA : List Char → Nat → List SearchHit := fun _ _ => []

/-- A search oracle that agrees with `searchA` exactly at `k = 5`. -/
def searchB : List Char → Nat → List SearchHit :=
  fun _ k => if k = 5 then [] else [⟨[], none, 0⟩]

/-- Modelled from the spec: a chunk as far as the Index Store is concerned is
its stable id (section 4.2); text, embedding and metadata do not affect the
stored id-set, which is what the reset claim compares. -/
structure Chunk where
  id : List Char
deriving DecidableEq

/-- An observable operation against the Index Store: a delete-all pass or one
full synchronization pass (with its `added` count). -/
inductive DbOp where
  | deleteAll : DbOp
  | syncPass : Nat → DbOp
deriving DecidableEq

/-- Number of full sync passes recorded in an operation log. -/
def countSyncPasses (log : List DbOp) : Nat :=
  log.countP (fun op => match op with | .syncPass _ => true | _ => false)

/-- Modelled from the spec: `add_to_chroma` of `populate_database.py` (absent
from src) is the `sync` of section 4.3 — upsert exactly the chunks whose id is
not yet in the store, keep the rest untouched; the store is tracked by its
id-set (as a list, insertion order preserved) and the pass is recorded in the
log with its `added` count. -/
def add_to_chroma (store : List (List Char)) (log : List DbOp)
    (chunks : List Chunk) : List (List Char) × List DbOp :=
  let newStore :=
    chunks.foldl (fun st ch => if ch.id ∈ st then st else st ++ [ch.id]) store
  (newStore, log ++ [DbOp.syncPass (newStore.length - store.length)])

/-- Modelled from the spec: `delete_database` of `populate_database.py`
(absent from src) deletes every id currently in the Index Store that matches
the chunk id namespace (section 4.3); the modelled store holds only ids of
that namespace, so the delete empties it and is recorded in the log. -/
def delete_database (store : List (List Char)) (log : List DbOp)
    (chunks : List Chunk) : List (List Char) × List DbOp :=
  ([], log ++ [DbOp.deleteAll])

/-- `reset_vector_database` (lines 97-106): load and split the corpus, delete
the stored ids, load and split again, then one `add_to_chroma` pass.  The
loader/splitter pair of `populate_database.py` (absent from src) is the pure
function `load_chunks`, per the spec's determinism of chunking (section 4.1-4.2). -/
def reset_vector_database (store : List (List Char)) (log : List DbOp)
    (load_chunks : Unit → List Chunk) : List (List Char) × List DbOp :=
  let chunks := load_chunks ()
  let r1 := delete_database store log chunks
  let chunks2 := load_chunks ()
  add_to_chroma r1.1 r1.2 chunks2

/-- Content whose two 300-character lines are packed into one slide body of
601 characters by the pagination loop at budget 600. -/
def c1content : List Char :=
  List.replicate 300 'a' ++ '\n' :: List.replicate 300 'a'

/-- The pagination loop only ever appends to the deck it is given. -/
theorem paginateLoop_deck (mc : Nat) (t : List Char) :
    ∀ (ps : List (List Char)) (prs : List Slide) (cc : List Char) (first : Bool),
      paginateLoop mc t prs cc first ps = prs ++ paginateLoop mc t [] cc first ps := by
  intro ps
  induction ps with
  | nil =>
      intro prs cc first
      simp [paginateLoop, add_content_to_slide]
  | cons p ps ih =>
      intro prs cc first
      simp only [paginateLoop]
      split
      · rw [ih (add_content_to_slide prs t cc first),
          ih (add_content_to_slide [] t cc first)]
        simp [add_content_to_slide]
      · exact ih prs _ first

/-- The pagination loop grows the deck by at least one slide. -/
theorem paginateLoop_length (mc : Nat) (t : List Char) :
    ∀ (ps : List (List Char)) (prs : List Slide) (cc : List Char) (first : Bool),
      prs.length + 1 ≤ (paginateLoop mc t prs cc first ps).length := by
  intro ps
  induction ps with
  | nil =>
      intro prs cc first
      simp [paginateLoop, add_content_to_slide]
  | cons p ps ih =>
      intro prs cc first
      simp only [paginateLoop]
      split
      · have h := ih (add_content_to_slide prs t cc first) p false
        simp only [add_content_to_slide, List.length_append, List.length_singleton] at h ⊢
        omega
      · exact ih prs _ first

/-- Final flush: the loop on no remaining lines emits the accumulator. -/
theorem paginateLoop_nil_eq (mc : Nat) (t cc : List Char) (first : Bool) :
    paginateLoop mc t [] cc first [] = [⟨if first then some t else none, cc⟩] := by
  simp [paginateLoop, add_content_to_slide]

/-- Overflow step: the accumulator is flushed and the line starts a new one. -/
theorem paginateLoop_cons_flush (mc : Nat) (t cc p : List Char)
    (ps : List (List Char)) (first : Bool) (h : cc.length + p.length > mc) :
    paginateLoop mc t [] cc first (p :: ps)
      = ⟨if first then some t else none, cc⟩ :: paginateLoop mc t [] p false ps := by
  simp only [paginateLoop, if_pos h]
  rw [paginateLoop_deck mc t ps (add_content_to_slide [] t cc first)]
  simp [add_content_to_slide]

/-- Non-overflow step: the line is appended to the accumulator. -/
theorem paginateLoop_cons_keep (mc : Nat) (t cc p : List Char)
    (ps : List (List Char)) (first : Bool) (h : ¬ (cc.length + p.length > mc)) :
    paginateLoop mc t [] cc first (p :: ps)
      = paginateLoop mc t []
          (if cc = [] then p else cc ++ '\n' :: p) first ps := by
  simp only [paginateLoop, if_neg h]

/-- Splitting never yields an empty list of pieces. -/
theorem splitNl_ne_nil : ∀ s : List Char, splitNl s ≠ [] := by
  intro s
  cases s with
  | nil => simp [splitNl]
  | cons c cs =>
      simp only [splitNl]
      split
      · simp
      · split <;> simp

/-- Unfolding of the rejoin on a list with at least two pieces. -/
theorem nlJoin_cons (b : List Char) (bs : List (List Char)) (h : bs ≠ []) :
    nlJoin (b :: bs) = b ++ '\n' :: nlJoin bs := by
  cases bs with
  | nil => exact absurd rfl h
  | cons b2 bs2 => rfl

/-- Rejoining the pieces of a split reproduces the original characters. -/
theorem nlJoin_splitNl : ∀ s : List Char, nlJoin (splitNl s) = s := by
  intro s
  induction s with
  | nil => rfl
  | cons c cs ih =>
      simp only [splitNl]
      split
      · rename_i hc
        rw [nlJoin_cons _ _ (splitNl_ne_nil cs), ih, hc]
        simp
      · cases hsp : splitNl cs with
        | nil => exact absurd hsp (splitNl_ne_nil cs)
        | cons l ls =>
            rw [hsp] at ih
            cases ls with
            | nil =>
                simp only [nlJoin] at ih ⊢
                rw [ih]
            | cons l2 ls2 =>
                rw [nlJoin_cons _ _ (by simp)] at ih
                rw [nlJoin_cons _ _ (by simp)]
                rw [← ih]
                simp

/-- Invariant for the budget bound: starting from an accumulator that is at
most one over budget or is itself one of the lines `L`, every emitted body is
at most one over budget or is one of the lines. -/
theorem paginateLoop_bound (mc : Nat) (t : List Char) (L : List (List Char)) :
    ∀ (ps : List (List Char)) (cc : List Char) (first : Bool),
      (cc.length ≤ mc + 1 ∨ cc ∈ L) → (∀ p ∈ ps, p ∈ L) →
      ∀ s ∈ paginateLoop mc t [] cc first ps,
        s.body.length ≤ mc + 1 ∨ s.body ∈ L := by
  intro ps
  induction ps with
  | nil =>
      intro cc first hcc hps s hs
      rw [paginateLoop_nil_eq] at hs
      rcases List.mem_singleton.mp hs with rfl
      simpa using hcc
  | cons p ps ih =>
      intro cc first hcc hps s hs
      by_cases h : cc.length + p.length > mc
      · rw [paginateLoop_cons_flush mc t cc p ps first h] at hs
        rcases List.mem_cons.mp hs with rfl | hmem
        · simpa using hcc
        · exact ih p false (Or.inr (hps p (by simp)))
            (fun q hq => hps q (by simp [hq])) s hmem
      · rw [paginateLoop_cons_keep mc t cc p ps first h] at hs
        refine ih _ first ?_ (fun q hq => hps q (by simp [hq])) s hs
        by_cases hcc0 : cc = []
        · rw [if_pos hcc0]
          exact Or.inr (hps p (by simp))
        · rw [if_neg hcc0]
          left
          simp only [List.length_append, List.length_cons]
          omega

/-- Joining a glued head piece is the same as joining the two pieces. -/
theorem nlJoin_glue (a b : List Char) (l : List (List Char)) :
    nlJoin ((a ++ '\n' :: b) :: l) = nlJoin (a :: b :: l) := by
  cases l with
  | nil => rfl
  | cons q qs =>
      have h1 : nlJoin ((a ++ '\n' :: b) :: q :: qs)
          = (a ++ '\n' :: b) ++ '\n' :: nlJoin (q :: qs) := rfl
      have h2 : nlJoin (a :: b :: q :: qs)
          = a ++ '\n' :: nlJoin (b :: q :: qs) := rfl
      have h3 : nlJoin (b :: q :: qs) = b ++ '\n' :: nlJoin (q :: qs) := rfl
      rw [h1, h2, h3]
      simp

/-- Invariant for exact rejoining: when the accumulator is non-empty and every
remaining line is non-empty and within budget, the emitted bodies rejoin to
the accumulator followed by the remaining lines. -/
theorem paginateLoop_join (mc : Nat) (t : List Char) :
    ∀ (ps : List (List Char)) (cc : List Char) (first : Bool),
      cc ≠ [] → (∀ p ∈ ps, p ≠ [] ∧ p.length ≤ mc) →
      nlJoin ((paginateLoop mc t [] cc first ps).map Slide.body)
        = nlJoin (cc :: ps) := by
  intro ps
  induction ps with
  | nil =>
      intro cc first hcc hps
      rw [paginateLoop_nil_eq]
      rfl
  | cons p ps ih =>
      intro cc first hcc hps
      obtain ⟨hpne, hple⟩ := hps p (by simp)
      by_cases h : cc.length + p.length > mc
      · rw [paginateLoop_cons_flush mc t cc p ps first h, List.map_cons]
        have hne : (paginateLoop mc t [] p false ps).map Slide.body ≠ [] := by
          intro hnil
          have hlen := paginateLoop_length mc t ps [] p false
          rw [List.map_eq_nil_iff] at hnil
          rw [hnil] at hlen
          simp at hlen
        rw [nlJoin_cons _ _ hne]
        rw [ih p false hpne (fun q hq => hps q (by simp [hq]))]
        rw [nlJoin_cons cc (p :: ps) (by simp)]
      · rw [paginateLoop_cons_keep mc t cc p ps first h, if_neg hcc]
        rw [ih (cc ++ '\n' :: p) first (by simp)
          (fun q hq => hps q (by simp [hq]))]
        exact nlJoin_glue cc p ps

/-- Once the first-slide flag is cleared, no emitted slide carries a title. -/
theorem paginateLoop_titles_false (mc : Nat) (t : List Char) :
    ∀ (ps : List (List Char)) (cc : List Char),
      ∀ s ∈ paginateLoop mc t [] cc false ps, s.title = none := by
  intro ps
  induction ps with
  | nil =>
      intro cc s hs
      rw [paginateLoop_nil_eq] at hs
      rcases List.mem_singleton.mp hs with rfl
      rfl
  | cons p ps ih =>
      intro cc s hs
      by_cases h : cc.length + p.length > mc
      · rw [paginateLoop_cons_flush mc t cc p ps false h] at hs
        rcases List.mem_cons.mp hs with rfl | hmem
        · rfl
        · exact ih p s hmem
      · rw [paginateLoop_cons_keep mc t cc p ps false h] at hs
        exact ih _ s hs

/-- While the first-slide flag is set, the first emitted slide carries the
title. -/
theorem paginateLoop_head_true (mc : Nat) (t : List Char) :
    ∀ (ps : List (List Char)) (cc : List Char),
      ((paginateLoop mc t [] cc true ps).head?).map Slide.title
        = some (some t) := by
  intro ps
  induction ps with
  | nil =>
      intro cc
      rw [paginateLoop_nil_eq]
      rfl
  | cons p ps ih =>
      intro cc
      by_cases h : cc.length + p.length > mc
      · rw [paginateLoop_cons_flush mc t cc p ps true h]
        rfl
      · rw [paginateLoop_cons_keep mc t cc p ps true h]
        exact ih _

/-- While the first-slide flag is set, every emitted slide after the first
carries no title. -/
theorem paginateLoop_tail_true (mc : Nat) (t : List Char) :
    ∀ (ps : List (List Char)) (cc : List Char),
      ∀ s ∈ (paginateLoop mc t [] cc true ps).tail, s.title = none := by
  intro ps
  induction ps with
  | nil =>
      intro cc s hs
      rw [paginateLoop_nil_eq] at hs
      simp at hs
  | cons p ps ih =>
      intro cc s hs
      by_cases h : cc.length + p.length > mc
      · rw [paginateLoop_cons_flush mc t cc p ps true h] at hs
        exact paginateLoop_titles_false mc t ps p s hs
      · rw [paginateLoop_cons_keep mc t cc p ps true h] at hs
        exact ih _ s hs

/-- The code's pagination loop computes the spec's left fold followed by the
final flush, from any starting state. -/
theorem paginateLoop_eq_foldl (mc : Nat) (t : List Char) :
    ∀ (lines : List (List Char)) (prs : List Slide) (cc : List Char) (first : Bool),
      paginateLoop mc t prs cc first lines =
        (lines.foldl (specStep mc t) ⟨prs, cc, first⟩).deck
          ++ [⟨if (lines.foldl (specStep mc t) ⟨prs, cc, first⟩).first_slide
                then some t else none,
               (lines.foldl (specStep mc t) ⟨prs, cc, first⟩).current_content⟩] := by
  intro lines
  induction lines with
  | nil =>
      intro prs cc first
      simp [paginateLoop, add_content_to_slide, List.foldl]
  | cons p ps ih =>
      intro prs cc first
      simp only [List.foldl_cons]
      by_cases h : cc.length + p.length > mc
      · have hstep : specStep mc t ⟨prs, cc, first⟩ p =
            ⟨add_content_to_slide prs t cc first, p, false⟩ := by
          simp [specStep, add_content_to_slide, h]
        simp only [hstep]
        simp only [paginateLoop, if_pos h]
        exact ih _ _ _
      · have hstep : specStep mc t ⟨prs, cc, first⟩ p =
            ⟨prs, if cc = [] then p else cc ++ '\n' :: p, first⟩ := by
          simp [specStep, h]
        simp only [hstep]
        simp only [paginateLoop, if_neg h]
        exact ih _ _ _

set_option maxRecDepth 40000 in
/-- C1 (counterexample): at the code's budget `MAX_CHARS_PER_SLIDE = 600`, a
content of two 300-character lines is packed into a single slide whose body
has 601 characters and is not a single input line, so the claimed bound
`len(body) <= MAX_CHARS_PER_SLIDE` (with the single-oversized-line exception)
fails: the capacity check ignores the joining newline. -/
theorem c1_counterexample :
    ¬ (∀ s ∈ add_slide_with_content MAX_CHARS_PER_SLIDE [] (("t").data) c1content,
        s.body.length ≤ MAX_CHARS_PER_SLIDE
          ∨ (s.body ∈ splitNl c1content ∧ MAX_CHARS_PER_SLIDE < s.body.length)) := by
  decide

/-- C1 (amended): for every title and content, every slide body has length at
most `mc + 1` — one over the budget, because the check
`len(current_content) + len(paragraph) > mc` does not count the newline that
joins them — except possibly slides whose body is a single input line that
alone exceeds that bound. -/
theorem c1_amended (mc : Nat) (title content : List Char) :
    ∀ s ∈ add_slide_with_content mc [] title content,
      s.body.length ≤ mc + 1
        ∨ (s.body ∈ splitNl content ∧ mc + 1 < s.body.length) := by
  intro s hs
  simp only [add_slide_with_content] at hs
  have hbase := paginateLoop_bound mc (normalize_title title) (splitNl content)
      (splitNl content) [] true (Or.inl (by simp)) (fun p hp => hp) s hs
  rcases hbase with h | h
  · exact Or.inl h
  · by_cases hlen : s.body.length ≤ mc + 1
    · exact Or.inl hlen
    · exact Or.inr ⟨h, by omega⟩

/-- C1 witness: the amended bound instantiated at budget 10, title `"t"` and
content `"hi"`, for the one slide the paginator produces there. -/
theorem c1_amended_witness :
    (Slide.mk (some (("t").data)) (("hi").data)).body.length ≤ 10 + 1
      ∨ ((Slide.mk (some (("t").data)) (("hi").data)).body ∈ splitNl (("hi").data)
          ∧ 10 + 1 < (Slide.mk (some (("t").data)) (("hi").data)).body.length) :=
  c1_amended 10 (("t").data) (("hi").data)
    (Slide.mk (some (("t").data)) (("hi").data)) (by decide)

/-- C2 (counterexample): for content `"\n"` the two empty lines are swallowed
by the `if current_content:` truthiness check, one empty body is produced, and
rejoining the bodies yields `""`, not the original content. -/
theorem c2_counterexample :
    ¬ (nlJoin ((add_slide_with_content MAX_CHARS_PER_SLIDE [] (("t").data)
          (("\n").data)).map Slide.body) = ("\n").data) := by
  decide

/-- C2 (amended): when every input line is non-empty and within the budget,
concatenating the bodies of all produced slides, in production order, rejoined
by the newline separator used to split the input, yields exactly the original
content. -/
theorem c2_amended (mc : Nat) (title content : List Char)
    (h : ∀ p ∈ splitNl content, p ≠ [] ∧ p.length ≤ mc) :
    nlJoin ((add_slide_with_content mc [] title content).map Slide.body)
      = content := by
  obtain ⟨p0, rest, hsp⟩ : ∃ p0 rest, splitNl content = p0 :: rest := by
    cases hh : splitNl content with
    | nil => exact absurd hh (splitNl_ne_nil content)
    | cons a b => exact ⟨a, b, rfl⟩
  obtain ⟨hp0ne, hp0le⟩ := h p0 (by rw [hsp]; exact List.mem_cons_self p0 rest)
  have hrest : ∀ q ∈ rest, q ≠ [] ∧ q.length ≤ mc := fun q hq =>
    h q (by rw [hsp]; exact List.mem_cons_of_mem _ hq)
  simp only [add_slide_with_content, hsp]
  rw [paginateLoop_cons_keep mc (normalize_title title) [] p0 rest true
    (by simp only [List.length_nil, Nat.zero_add]; omega)]
  rw [if_pos rfl]
  rw [paginateLoop_join mc (normalize_title title) rest p0 true hp0ne hrest]
  rw [← nlJoin_splitNl content, hsp]

/-- C2 witness: the amended completeness instantiated at budget 600, title
`"t"` and content `"ab"`. -/
theorem c2_amended_witness :
    nlJoin ((add_slide_with_content 600 [] (("t").data)
        (("ab").data)).map Slide.body) = ("ab").data :=
  c2_amended 600 (("t").data) (("ab").data) (by decide)

/-- C3 (counterexample): at budget 10 the input lines `hello`, `world`,
`foobarbaz!` do not produce the three claimed bodies: the check
`5 + 5 > 10` is false, so `hello` and `world` are packed together. -/
theorem c3_counterexample :
    ¬ ((add_slide_with_content 10 [] (("t").data)
          (("hello\nworld\nfoobarbaz!").data)).map Slide.body
        = [("hello").data, ("world").data, ("foobarbaz!").data]) := by
  decide

/-- C3 (amended): at budget 10 and input lines `hello`, `world`,
`foobarbaz!`, the paginator produces exactly 2 slides with bodies
`"hello\nworld"` and `"foobarbaz!"`, in that order, for every title. -/
theorem c3_amended (title : List Char) :
    (add_slide_with_content 10 [] title
        (("hello\nworld\nfoobarbaz!").data)).map Slide.body
      = [("hello\nworld").data, ("foobarbaz!").data] := rfl

/-- C4: the code's pagination loop is exactly the spec's state machine — a
left fold of the flush-or-append step over the lines, starting from an empty
accumulator with the first-slide flag set, followed by a final flush — and
`add_slide_with_content` runs it on the normalized title over the
newline-split content. -/
theorem c4_loop_is_spec (mc : Nat) (t title content : List Char)
    (lines : List (List Char)) :
    paginateLoop mc t [] [] true lines = specPaginate mc t lines
      ∧ add_slide_with_content mc [] title content
          = specPaginate mc (normalize_title title) (splitNl content) :=
  ⟨paginateLoop_eq_foldl mc t lines [] [] true,
   paginateLoop_eq_foldl mc (normalize_title title) (splitNl content) [] [] true⟩

/-- C5: pagination always produces at least one slide, and on empty content
the final flush emits exactly one slide with an empty body (and the title,
since no earlier flush cleared the flag). -/
theorem c5_always_a_slide (mc : Nat) (title content : List Char) :
    1 ≤ (add_slide_with_content mc [] title content).length
      ∧ add_slide_with_content mc [] title []
          = [⟨some (normalize_title title), []⟩] := by
  constructor
  · have h := paginateLoop_length mc (normalize_title title) (splitNl content)
      [] [] true
    simpa using h
  · simp only [add_slide_with_content]
    rw [show splitNl ([] : List Char) = [[]] from rfl]
    rw [paginateLoop_cons_keep mc (normalize_title title) [] [] [] true (by simp)]
    rw [if_pos rfl]
    rw [paginateLoop_nil_eq]
    simp

/-- C6: when the lowercased title contains a trigger substring it is rewritten
to exactly one canonical label — `"Summary:"` when it contains `summary`,
`"Case study:"` when it contains `case study` or `case studies` (and not
`summary`), `"Q&A:"` for the remaining triggers — otherwise it is used
verbatim; and only the first slide produced for an answer carries the title. -/
theorem c6_title_normalization (title : List Char) :
    ((special_cases.any (fun c => isSubstr c (lowerStr title)) = true →
        (isSubstr (("summary").data) (lowerStr title) = true →
            normalize_title title = ("Summary:").data)
      ∧ (isSubstr (("summary").data) (lowerStr title) = false →
          (isSubstr (("case study").data) (lowerStr title)
            || isSubstr (("case studies").data) (lowerStr title)) = true →
            normalize_title title = ("Case study:").data)
      ∧ (isSubstr (("summary").data) (lowerStr title) = false →
          (isSubstr (("case study").data) (lowerStr title)
            || isSubstr (("case studies").data) (lowerStr title)) = false →
            normalize_title title = ("Q&A:").data))
    ∧ (special_cases.any (fun c => isSubstr c (lowerStr title)) = false →
        normalize_title title = title))
    ∧ (∀ content : List Char,
        ((add_slide_with_content MAX_CHARS_PER_SLIDE [] title content).head?).map
            Slide.title = some (some (normalize_title title))
        ∧ ∀ s ∈ (add_slide_with_content MAX_CHARS_PER_SLIDE [] title content).tail,
            s.title = none) := by
  refine ⟨⟨?_, ?_⟩, ?_⟩
  · intro htrig
    refine ⟨?_, ?_, ?_⟩
    · intro hsum
      simp [normalize_title, htrig, hsum]
    · intro hsum hcs
      simp [normalize_title, htrig, hsum, hcs]
    · intro hsum hcs
      simp [normalize_title, htrig, hsum, hcs]
  · intro htrig
    simp [normalize_title, htrig]
  · intro content
    exact ⟨paginateLoop_head_true MAX_CHARS_PER_SLIDE (normalize_title title)
        (splitNl content) [],
      fun s hs => paginateLoop_tail_true MAX_CHARS_PER_SLIDE
        (normalize_title title) (splitNl content) [] s hs⟩

/-- C6 witness: a triggered title containing `summary` is rewritten to
`"Summary:"`, and the first slide produced for it carries that title. -/
theorem c6_witness :
    normalize_title (("A Summary of the topic").data) = ("Summary:").data
      ∧ ((add_slide_with_content MAX_CHARS_PER_SLIDE []
            (("A Summary of the topic").data) (("hi").data)).head?).map Slide.title
          = some (some (normalize_title (("A Summary of the topic").data))) :=
  ⟨((c6_title_normalization (("A Summary of the topic").data)).1.1
      (by decide)).1 (by decide),
   ((c6_title_normalization (("A Summary of the topic").data)).2
      (("hi").data)).1⟩

/-- C7: the reset deletes every stored id and then performs exactly one full
sync pass (the log gains one sync entry), leaving the store equal to a single
sync of the corpus on an empty store. -/
theorem c7_reset_single_sync (store : List (List Char)) (log : List DbOp)
    (load_chunks : Unit → List Chunk) :
    (reset_vector_database store log load_chunks).1
        = (add_to_chroma [] [] (load_chunks ())).1
      ∧ countSyncPasses (reset_vector_database store log load_chunks).2
          = countSyncPasses log + 1 := by
  constructor
  · rfl
  · simp [reset_vector_database, delete_database, add_to_chroma,
      countSyncPasses, List.countP_append, List.countP_cons]

/-- C8: appending an answer to the persisted deck leaves every previously
stored slide unchanged and in its original order, only adding the newly
produced slides at the end. -/
theorem c8_deck_append (prs : List Slide) (title content : List Char) :
    update_presentation prs title content
      = prs ++ update_presentation [] title content := by
  simp only [update_presentation, add_slide_with_content]
  rw [paginateLoop_deck]

/-- C9: the normalization checks have a fixed precedence — a title whose
lowercase form contains both `summary` and `case study` (or `case studies`)
becomes `"Summary:"`, and a triggered title containing none of those becomes
`"Q&A:"`. -/
theorem c9_precedence (title : List Char) :
    ((isSubstr (("summary").data) (lowerStr title) = true
        ∧ (isSubstr (("case study").data) (lowerStr title) = true
            ∨ isSubstr (("case studies").data) (lowerStr title) = true)) →
        normalize_title title = ("Summary:").data)
    ∧ ((special_cases.any (fun c => isSubstr c (lowerStr title)) = true
        ∧ isSubstr (("summary").data) (lowerStr title) = false
        ∧ isSubstr (("case study").data) (lowerStr title) = false
        ∧ isSubstr (("case studies").data) (lowerStr title) = false) →
        normalize_title title = ("Q&A:").data) := by
  constructor
  · rintro ⟨hsum, _⟩
    have htrig : special_cases.any (fun c => isSubstr c (lowerStr title)) = true :=
      List.any_eq_true.mpr ⟨("summary").data, by simp [special_cases], hsum⟩
    simp [normalize_title, htrig, hsum]
  · rintro ⟨htrig, hsum, hcs, hcss⟩
    simp [normalize_title, htrig, hsum, hcs, hcss]

/-- C9 witness: a title containing both `summary` and `case study` is
normalized to `"Summary:"`. -/
theorem c9_witness :
    normalize_title (("summary of a case study").data) = ("Summary:").data :=
  (c9_precedence (("summary of a case study").data)).1
    ⟨by decide, Or.inl (by decide)⟩

/-- C10: `query_database` requests exactly `k = 5` results from the
similarity search: its output depends on the search oracle only through the
oracle's behaviour at `k = 5`, for every query text and prompt type (and the
function takes no `k` parameter). -/
theorem c10_retrieval_k5 (s1 s2 : List Char → Nat → List SearchHit)
    (invoke : List Char → List Char) (prs : List Slide)
    (query_text : List Char) (prompt_type : PromptKind)
    (h : ∀ q, s1 q 5 = s2 q 5) :
    query_database s1 invoke prs query_text prompt_type
      = query_database s2 invoke prs query_text prompt_type := by
  simp only [query_database, h query_text]

/-- C10 witness: two oracles that agree at `k = 5` (and nowhere else) give the
same query result. -/
theorem c10_witness :
    query_database searchA (fun p => p) [] (("q").data) PromptKind.rag
      = query_database searchB (fun p => p) [] (("q").data) PromptKind.rag :=
  c10_retrieval_k5 searchA searchB (fun p => p) [] (("q").data) PromptKind.rag
    (fun _ => rfl)
